import Mathlib

/-!
Verification of the KDX strategy core (`kd_strategyB.py`): the KD indicator
engine (`compute_kd_recursive`), the crossing detectors, the per-symbol
signal state machine inside `process_symbol`, and the state store
(`load_state`).  Python floats are modelled as exact rationals, `NaN` as
`Option.none`, Python dicts as association lists, and the mutable
state-machine body of `process_symbol` as a pure function returning the
fired alerts, the new state mapping, and the list of persisted snapshots
(one per `save_state` call).
-/

namespace KDX

/-! ## Python dict model (association lists) -/

/-- `d.get(k)` for a Python dict: first binding for `k`, if any. -/
def dictGet? {α : Type} (d : List (String × α)) (k : String) : Option α :=
  match d with
  | [] => none
  | (k1, v1) :: rest => if k1 = k then some v1 else dictGet? rest k

/-- `d[k] = v` for a Python dict: replace the binding for `k`, else append. -/
def dictSet {α : Type} (d : List (String × α)) (k : String) (v : α) :
    List (String × α) :=
  match d with
  | [] => [(k, v)]
  | (k1, v1) :: rest =>
      if k1 = k then (k, v) :: rest else (k1, v1) :: dictSet rest k v

/-! ## Symbol state (`state.get(sym, {"position": "flat", "alerts": {}})`) -/

inductive Position where
  | flat : Position
  | long : Position
deriving DecidableEq

structure SymState where
  position : Position
  alerts : List (String × Bool)
  last_entry : Option String
deriving DecidableEq

/-- The default slice used when a symbol has no stored state yet. -/
def defaultSymState : SymState := ⟨Position.flat, [], none⟩

abbrev StateMap := List (String × SymState)

/-- `state.get(sym, {"position": "flat", "alerts": {}})`. -/
def stateGet (state : StateMap) (sym : String) : SymState :=
  (dictGet? state sym).getD defaultSymState

/-- `alerted(key)` inside `process_symbol`: `alerts.get(key, False)`. -/
def alerted (alerts : List (String × Bool)) (key : String) : Bool :=
  (dictGet? alerts key).getD false

/-! ## Indicator engine (`compute_kd_recursive`)

A bar carries the columns the engine reads.  Rolling `max`/`min` with
`min_periods = n` yields a defined window only from position `n-1` on;
a flat window (`highest == lowest`) makes the RSV denominator `NaN`
(`denom.replace(0, np.nan)`), hence an undefined RSV. -/

structure Bar where
  high : ℚ
  low : ℚ
  close : ℚ
deriving DecidableEq

def listMax : List ℚ → ℚ
  | [] => 0
  | x :: xs => xs.foldl max x

def listMin : List ℚ → ℚ
  | [] => 0
  | x :: xs => xs.foldl min x

/-- The `n`-bar window ending at position `i` (rows `i-n+1 .. i`). -/
def window (n : Nat) (bars : List Bar) (i : Nat) : List Bar :=
  (bars.take (i + 1)).drop (i + 1 - n)

def winHigh (n : Nat) (bars : List Bar) (i : Nat) : ℚ :=
  listMax ((window n bars i).map Bar.high)

def winLow (n : Nat) (bars : List Bar) (i : Nat) : ℚ :=
  listMin ((window n bars i).map Bar.low)

/-- Position `i` has a full window whose highest high equals its lowest low. -/
def FlatWindow (n : Nat) (bars : List Bar) (i : Nat) : Prop :=
  n ≤ i + 1 ∧ i < bars.length ∧ winHigh n bars i = winLow n bars i

instance (n : Nat) (bars : List Bar) (i : Nat) : Decidable (FlatWindow n bars i) := by
  unfold FlatWindow
  infer_instance

/-- `rsv = 100 * (close - lowest_n) / denom` with `denom` `NaN` when the
window is incomplete or flat. -/
def rsvAt (n : Nat) (bars : List Bar) (i : Nat) : Option ℚ :=
  if i + 1 < n then none
  else if winHigh n bars i = winLow n bars i then none
  else some (100 * ((bars.getD i (Bar.mk 0 0 0)).close - winLow n bars i) /
      (winHigh n bars i - winLow n bars i))

def rsvList (n : Nat) (bars : List Bar) : List (Option ℚ) :=
  (List.range bars.length).map (rsvAt n bars)

/-! `Series.ewm(alpha=α, adjust=False).mean()` with the pandas defaults
(`ignore_na=False`, `min_periods=0`, so `minp = 1`): a left scan whose
accumulator keeps the current weighted mean (undefined until the first
non-`NaN` value), the decayed weight of the old mean, and the number of
observations so far.  A `NaN` input leaves the mean in place (the output
carries the previous value) but decays the old weight, so the next
observation is combined with weight `old_wt = (1-α)^(gap+1)` and then the
weight is renormalised to 1. -/

structure EwmState where
  weighted : Option ℚ
  old_wt : ℚ
  nobs : Nat
deriving DecidableEq

def ewmStep (α : ℚ) (s : EwmState) (cur : Option ℚ) : EwmState :=
  match s.weighted, cur with
  | some w, some c =>
      let ow := s.old_wt * (1 - α)
      ⟨some (if w = c then w else (ow * w + α * c) / (ow + α)), 1, s.nobs + 1⟩
  | some w, none => ⟨some w, s.old_wt * (1 - α), s.nobs⟩
  | none, some c => ⟨some c, s.old_wt, s.nobs + 1⟩
  | none, none => s

def ewmOut (s : EwmState) : Option ℚ :=
  if s.nobs = 0 then none else s.weighted

def ewmGo (α : ℚ) (s : EwmState) : List (Option ℚ) → List (Option ℚ)
  | [] => []
  | c :: rest => ewmOut (ewmStep α s c) :: ewmGo α (ewmStep α s c) rest

def ewm (α : ℚ) (vals : List (Option ℚ)) : List (Option ℚ) :=
  ewmGo α ⟨none, 1, 0⟩ vals

/-- `K = rsv.ewm(alpha, adjust=False).mean(); D = K.ewm(alpha, adjust=False).mean()`:
the K line and D line of the engine, positionwise `Option ℚ`. -/
def compute_kd_recursive (n : Nat) (α : ℚ) (bars : List Bar) :
    List (Option ℚ) × List (Option ℚ) :=
  (ewm α (rsvList n bars), ewm α (ewm α (rsvList n bars)))

/-- Modelled from the spec (for comparison with the source `ewm`): the
explicit seeded recursion `K(i) = α·RSV(i) + (1-α)·K(i-1)` continued from
seed value `k`. -/
def seedGo (α : ℚ) (k : ℚ) : List ℚ → List ℚ
  | [] => []
  | r :: rs => (α * r + (1 - α) * k) :: seedGo α (α * r + (1 - α) * k) rs

/-- Modelled from the spec: the recursive mean over defined values, seeded
with the first value itself (no prior smoothing, no initialisation at 50). -/
def seedScan (α : ℚ) : List ℚ → List ℚ
  | [] => []
  | r :: rs => r :: seedGo α r rs

/-! ## Crossing detectors -/

def crossed_up (k_prev d_prev k d : ℚ) : Bool :=
  decide (k_prev ≤ d_prev) && decide (k > d)

def crossed_down (k_prev d_prev k d : ℚ) : Bool :=
  decide (k_prev ≥ d_prev) && decide (k < d)

/-! ## Signal state machine (`process_symbol`, lines 241-332)

The per-invocation inputs already extracted from the data frames: the last
two defined daily (K, D) rows, the daily close and MA (the MA is `NaN`,
i.e. `none`, when fewer than `DAILY_MA` closes exist), the completed weekly
row with its MA, and the three date strings used for keys and `last_entry`.
-/

structure Inputs where
  k_prev : ℚ
  d_prev : ℚ
  k_last : ℚ
  d_last : ℚ
  w_k : ℚ
  w_d : ℚ
  w_close : ℚ
  w_ma : Option ℚ
  d_close : ℚ
  d_ma : Option ℚ
  date_key : String
  w_week_str : String
  d_ts : String
deriving DecidableEq

/-- `weekly_ok = (w_k > w_d) and (w_k >= 50.0) and (not isnan(w_ma20) and w_close > w_ma20)`. -/
def weekly_ok_of (inp : Inputs) : Bool :=
  decide (inp.w_k > inp.w_d) && decide (inp.w_k ≥ 50) &&
    (match inp.w_ma with
     | none => false
     | some m => decide (inp.w_close > m))

/-- `daily_trend_ok = d_close > d_ma20` (false when the MA is `NaN`). -/
def daily_trend_ok_of (inp : Inputs) : Bool :=
  match inp.d_ma with
  | none => false
  | some m => decide (inp.d_close > m)

inductive Alert where
  | entry : Alert
  | reduce : Alert
  | exitAll : Alert
deriving DecidableEq

/-- Result of one state-machine pass: the alerts fired in order, the final
state mapping, and the snapshot passed to each `save_state` call. -/
structure StepResult where
  fired : List Alert
  state : StateMap
  saves : List StateMap
deriving DecidableEq

/-- Guard of the Entry branch (line 286). -/
def entry_cond (inp : Inputs) (s : SymState) : Bool :=
  decide (s.position = Position.flat) && weekly_ok_of inp &&
    crossed_up inp.k_prev inp.d_prev inp.k_last inp.d_last &&
    daily_trend_ok_of inp

/-- Guard of the Reduce branch (line 303), reading the current `sym_state`. -/
def reduce_cond (inp : Inputs) (s : SymState) : Bool :=
  decide (s.position = Position.long) &&
    crossed_down inp.k_prev inp.d_prev inp.k_last inp.d_last &&
    !(alerted s.alerts ("daily_exit@" ++ inp.date_key))

/-- Guard of the Exit branch (line 316), reading `sym_state` as mutated by a
Reduce earlier in the same pass. -/
def exit_cond (inp : Inputs) (s : SymState) : Bool :=
  decide (s.position = Position.long) && !(weekly_ok_of inp) &&
    !(alerted s.alerts ("weekly_off@" ++ inp.w_week_str))

/-- Entry mutation (lines 293-294): go long, record `last_entry`. -/
def entry_apply (inp : Inputs) (s : SymState) : SymState :=
  { s with position := Position.long, last_entry := some inp.d_ts }

/-- Reduce mutation (`mark_alert(ex_key)`, line 309). -/
def reduce_apply (inp : Inputs) (s : SymState) : SymState :=
  { s with alerts := dictSet s.alerts ("daily_exit@" ++ inp.date_key) true }

/-- Exit mutation (line 322): back to flat.  The source marks no key here. -/
def exit_apply (s : SymState) : SymState :=
  { s with position := Position.flat }

/-- The state-machine body of `process_symbol` (lines 273-332).  The Python
code mutates `sym_state` in place and re-reads it in the Exit guard; here
the Reduce-updated slice is threaded explicitly, so the Exit branch appears
once for each of the two paths. -/
def process_symbol (inp : Inputs) (sym : String) (state : StateMap) : StepResult :=
  let s0 := stateGet state sym
  if entry_cond inp s0 then
    let st1 := dictSet state sym (entry_apply inp s0)
    ⟨[Alert.entry], st1, [st1]⟩
  else
    if reduce_cond inp s0 then
      let s1 := reduce_apply inp s0
      let st1 := dictSet state sym s1
      if exit_cond inp s1 then
        let st2 := dictSet st1 sym (exit_apply s1)
        ⟨[Alert.reduce, Alert.exitAll], st2, [st1, st2]⟩
      else ⟨[Alert.reduce], st1, [st1]⟩
    else
      if exit_cond inp s0 then
        let st1 := dictSet state sym (exit_apply s0)
        ⟨[Alert.exitAll], st1, [st1]⟩
      else ⟨[], state, []⟩

/-! ## Data-sufficiency guard (`process_symbol`, lines 225-229) -/

def need_d (daily_ma k_period : Nat) : Nat := max (daily_ma + 2) (k_period + 2)

def need_w (weekly_ma k_period : Nat) : Nat := max (weekly_ma + 2) (k_period + 2)

/-- `process_symbol` after fetching: the length guard, then the indicator
pipeline (whose outcome is supplied as `downstream`: an exception, a later
skip such as too few defined KD rows or an NA weekly row, or usable
`Inputs`), then the state machine.  Returns `none` in place of a `StepResult`
when the symbol was skipped. -/
def process_symbol_run (len_d len_w daily_ma weekly_ma k_period : Nat)
    (downstream : Except String (Option Inputs)) (sym : String)
    (state : StateMap) : Except String (Option StepResult × StateMap) :=
  if len_d < need_d daily_ma k_period ∨ len_w < need_w weekly_ma k_period then
    Except.ok (none, state)
  else
    match downstream with
    | Except.error e => Except.error e
    | Except.ok none => Except.ok (none, state)
    | Except.ok (some inp) =>
        let r := process_symbol inp sym state
        Except.ok (some r, r.state)

/-! ## State store (`load_state`, lines 70-77) -/

/-- `load_state`: the environment is `none` when the state file is absent,
`some (.error e)` when its contents fail to parse as JSON, and
`some (.ok st)` on a successful parse.  Both failure shapes fall back to
the empty mapping. -/
def load_state (file : Option (Except String StateMap)) : StateMap :=
  match file with
  | none => []
  | some (Except.error _) => []
  | some (Except.ok st) => st

/-! ## Concrete instances used to exercise the definitions -/

/-- Three bars whose 2-bar window at position 2 is flat (high = low = 10 on
both bars) while position 1 has RSV 100. -/
def exBars : List Bar := [⟨10, 5, 7⟩, ⟨10, 10, 10⟩, ⟨10, 10, 10⟩]

/-- `exBars` followed by a bar that reopens the range, so that RSV resumes
with value 0 after the flat (undefined) position. -/
def exBars4 : List Bar := [⟨10, 5, 7⟩, ⟨10, 10, 10⟩, ⟨10, 10, 10⟩, ⟨10, 0, 0⟩]

/-- Three bars with no flat window: RSV is `[none, 100, 0]`. -/
def smoothBars : List Bar := [⟨10, 0, 5⟩, ⟨10, 0, 10⟩, ⟨10, 0, 0⟩]

/-- A daily golden cross under a passing weekly filter and daily trend. -/
def entryInp : Inputs :=
  ⟨40, 50, 60, 50, 55, 50, 100, some 95, 100, some 90,
    "2024-01-05", "2024-01-01", "2024-01-05 00:00"⟩

/-- No daily cross, weekly filter off (weekly K below weekly D). -/
def exitInp : Inputs :=
  ⟨50, 40, 60, 40, 40, 50, 100, some 95, 100, some 90,
    "2024-01-05", "2024-01-01", "2024-01-05 00:00"⟩

/-- A daily death cross while the weekly filter still passes. -/
def reduceInp : Inputs :=
  ⟨51, 50, 49, 50, 55, 50, 100, some 95, 100, some 90,
    "2024-01-05", "2024-01-01", "2024-01-05 00:00"⟩

/-- A stored mapping holding symbol `"S"` long with no fired keys. -/
def longState : StateMap := [("S", ⟨Position.long, [], none⟩)]

/-! ## Dictionary and state lemmas -/

theorem dictGet?_set_self {α : Type} (d : List (String × α)) (k : String) (v : α) :
    dictGet? (dictSet d k v) k = some v := by
  induction d with
  | nil => simp [dictSet, dictGet?]
  | cons p rest ih =>
    obtain ⟨k1, v1⟩ := p
    by_cases h : k1 = k
    · simp [dictSet, dictGet?, h]
    · simp [dictSet, dictGet?, h, ih]

theorem dictGet?_set_ne {α : Type} (d : List (String × α)) (k k1 : String) (v : α)
    (h : k1 ≠ k) : dictGet? (dictSet d k v) k1 = dictGet? d k1 := by
  induction d with
  | nil => simp [dictSet, dictGet?, h.symm]
  | cons p rest ih =>
    obtain ⟨k2, v2⟩ := p
    by_cases h2 : k2 = k
    · subst h2
      simp [dictSet, dictGet?, h.symm]
    · simp [dictSet, dictGet?, h2, ih]

theorem stateGet_set_self (st : StateMap) (sym : String) (s : SymState) :
    stateGet (dictSet st sym s) sym = s := by
  simp [stateGet, dictGet?_set_self]

theorem stateGet_set_ne (st : StateMap) (sym sym1 : String) (s : SymState)
    (h : sym1 ≠ sym) : stateGet (dictSet st sym s) sym1 = stateGet st sym1 := by
  simp [stateGet, dictGet?_set_ne _ _ _ _ h]

theorem alerted_set_self (al : List (String × Bool)) (k : String) :
    alerted (dictSet al k true) k = true := by
  simp [alerted, dictGet?_set_self]

/-! ## Crossing lemmas -/

theorem crossed_up_not_down (a b c d : ℚ) (h : crossed_up a b c d = true) :
    crossed_down a b c d = false := by
  simp only [crossed_up, Bool.and_eq_true, decide_eq_true_eq] at h
  simp only [crossed_down, Bool.and_eq_true, decide_eq_true_eq, not_and,
    Bool.and_eq_false_iff, decide_eq_false_iff_not, not_lt]
  right
  exact le_of_lt h.2

/-! ## Smoothing lemmas -/

theorem ewmOut_step_none (α : ℚ) (s : EwmState) :
    ewmOut (ewmStep α s none) = ewmOut s := by
  obtain ⟨w, ow, nb⟩ := s
  cases w <;> simp [ewmStep, ewmOut]

theorem ewmGo_length (α : ℚ) (vals : List (Option ℚ)) : ∀ (s : EwmState),
    (ewmGo α s vals).length = vals.length := by
  induction vals with
  | nil => intro s; simp [ewmGo]
  | cons c rest ih => intro s; simp [ewmGo, ih]

theorem ewmGo_get_none (α : ℚ) (vals : List (Option ℚ)) : ∀ (s : EwmState) (i : Nat),
    vals[i + 1]? = some none →
    (ewmGo α s vals)[i + 1]? = (ewmGo α s vals)[i]? := by
  induction vals with
  | nil => intro s i h; simp at h
  | cons c rest ih =>
    intro s i h
    rw [List.getElem?_cons_succ] at h
    cases i with
    | zero =>
      cases rest with
      | nil => simp at h
      | cons c2 rest2 =>
        rw [List.getElem?_cons_zero] at h
        obtain rfl : c2 = none := by injection h
        simp [ewmGo, ewmOut_step_none]
    | succ j =>
      simp only [ewmGo, List.getElem?_cons_succ]
      exact ih (ewmStep α s c) j h

theorem ewm_get_zero_none (α : ℚ) (vals : List (Option ℚ)) (h : vals[0]? = some none) :
    (ewm α vals)[0]? = some none := by
  cases vals with
  | nil => simp at h
  | cons c rest =>
    rw [List.getElem?_cons_zero] at h
    obtain rfl : c = none := by injection h
    simp [ewm, ewmGo, ewmStep, ewmOut]

theorem rsvList_get (n : Nat) (bars : List Bar) (i : Nat) (h : i < bars.length) :
    (rsvList n bars)[i]? = some (rsvAt n bars i) := by
  simp [rsvList, List.getElem?_map, List.getElem?_range, h]

theorem ewmStep_some_some (α k q : ℚ) (nb : Nat) :
    ewmStep α ⟨some k, 1, nb⟩ (some q) =
      ⟨some (α * q + (1 - α) * k), 1, nb + 1⟩ := by
  simp only [ewmStep, one_mul]
  by_cases hk : k = q
  · subst hk
    have : α * k + (1 - α) * k = k := by ring
    simp [this]
  · simp [hk]
    ring

theorem ewmGo_map_some (α : ℚ) (qs : List ℚ) : ∀ (k : ℚ) (nb : Nat),
    ewmGo α ⟨some k, 1, nb⟩ (qs.map some) = (seedGo α k qs).map some := by
  induction qs with
  | nil => intro k nb; simp [ewmGo, seedGo]
  | cons q qs ih =>
    intro k nb
    simp only [List.map_cons, ewmGo, ewmStep_some_some, seedGo]
    simp [ewmOut, ih (α * q + (1 - α) * k) (nb + 1)]

theorem ewmGo_replicate_none (α : ℚ) (m : Nat) (rest : List (Option ℚ)) :
    ewmGo α ⟨none, 1, 0⟩ (List.replicate m none ++ rest) =
      List.replicate m none ++ ewmGo α ⟨none, 1, 0⟩ rest := by
  induction m with
  | zero => simp
  | succ j ih =>
    have hstep : ewmStep α ⟨none, 1, 0⟩ none = ⟨none, 1, 0⟩ := rfl
    simp [List.replicate_succ, ewmGo, hstep, ewmOut, ih]

theorem ewm_shape (α : ℚ) (m : Nat) (qs : List ℚ) :
    ewm α (List.replicate m none ++ qs.map some) =
      List.replicate m none ++ (seedScan α qs).map some := by
  rw [ewm, ewmGo_replicate_none]
  cases qs with
  | nil => simp [ewmGo, seedScan]
  | cons q qs =>
    have hstep : ewmStep α ⟨none, 1, 0⟩ (some q) = ⟨some q, 1, 1⟩ := rfl
    simp only [List.map_cons, ewmGo, hstep, seedScan]
    simp [ewmOut, ewmGo_map_some α qs q 1]

/-! ## Guard extraction and branch equations for `process_symbol` -/

theorem entry_cond_flat (inp : Inputs) (s : SymState) (h : entry_cond inp s = true) :
    s.position = Position.flat := by
  simp only [entry_cond, Bool.and_eq_true, decide_eq_true_eq] at h
  exact h.1.1.1

theorem entry_cond_weekly (inp : Inputs) (s : SymState) (h : entry_cond inp s = true) :
    weekly_ok_of inp = true := by
  simp only [entry_cond, Bool.and_eq_true, decide_eq_true_eq] at h
  exact h.1.1.2

theorem entry_cond_up (inp : Inputs) (s : SymState) (h : entry_cond inp s = true) :
    crossed_up inp.k_prev inp.d_prev inp.k_last inp.d_last = true := by
  simp only [entry_cond, Bool.and_eq_true, decide_eq_true_eq] at h
  exact h.1.2

theorem reduce_cond_long (inp : Inputs) (s : SymState) (h : reduce_cond inp s = true) :
    s.position = Position.long := by
  simp only [reduce_cond, Bool.and_eq_true, decide_eq_true_eq] at h
  exact h.1.1

theorem exit_cond_long (inp : Inputs) (s : SymState) (h : exit_cond inp s = true) :
    s.position = Position.long := by
  simp only [exit_cond, Bool.and_eq_true, decide_eq_true_eq] at h
  exact h.1.1

theorem exit_cond_weekly_off (inp : Inputs) (s : SymState) (h : exit_cond inp s = true) :
    weekly_ok_of inp = false := by
  simp only [exit_cond, Bool.and_eq_true, decide_eq_true_eq, Bool.not_eq_true'] at h
  exact h.1.2

theorem entry_apply_position (inp : Inputs) (s : SymState) :
    (entry_apply inp s).position = Position.long := rfl

theorem reduce_apply_position (inp : Inputs) (s : SymState) :
    (reduce_apply inp s).position = s.position := rfl

theorem exit_apply_position (s : SymState) :
    (exit_apply s).position = Position.flat := rfl

theorem process_symbol_entry_eq (inp : Inputs) (sym : String) (st : StateMap)
    (hE : entry_cond inp (stateGet st sym) = true) :
    process_symbol inp sym st =
      ⟨[Alert.entry], dictSet st sym (entry_apply inp (stateGet st sym)),
        [dictSet st sym (entry_apply inp (stateGet st sym))]⟩ := by
  simp [process_symbol, hE]

theorem process_symbol_reduce_exit_eq (inp : Inputs) (sym : String) (st : StateMap)
    (hE : entry_cond inp (stateGet st sym) = false)
    (hR : reduce_cond inp (stateGet st sym) = true)
    (hX : exit_cond inp (reduce_apply inp (stateGet st sym)) = true) :
    process_symbol inp sym st =
      ⟨[Alert.reduce, Alert.exitAll],
        dictSet (dictSet st sym (reduce_apply inp (stateGet st sym))) sym
          (exit_apply (reduce_apply inp (stateGet st sym))),
        [dictSet st sym (reduce_apply inp (stateGet st sym)),
          dictSet (dictSet st sym (reduce_apply inp (stateGet st sym))) sym
            (exit_apply (reduce_apply inp (stateGet st sym)))]⟩ := by
  simp [process_symbol, hE, hR, hX]

theorem process_symbol_reduce_eq (inp : Inputs) (sym : String) (st : StateMap)
    (hE : entry_cond inp (stateGet st sym) = false)
    (hR : reduce_cond inp (stateGet st sym) = true)
    (hX : exit_cond inp (reduce_apply inp (stateGet st sym)) = false) :
    process_symbol inp sym st =
      ⟨[Alert.reduce], dictSet st sym (reduce_apply inp (stateGet st sym)),
        [dictSet st sym (reduce_apply inp (stateGet st sym))]⟩ := by
  simp [process_symbol, hE, hR, hX]

theorem process_symbol_exit_eq (inp : Inputs) (sym : String) (st : StateMap)
    (hE : entry_cond inp (stateGet st sym) = false)
    (hR : reduce_cond inp (stateGet st sym) = false)
    (hX : exit_cond inp (stateGet st sym) = true) :
    process_symbol inp sym st =
      ⟨[Alert.exitAll], dictSet st sym (exit_apply (stateGet st sym)),
        [dictSet st sym (exit_apply (stateGet st sym))]⟩ := by
  simp [process_symbol, hE, hR, hX]

theorem process_symbol_noop_eq (inp : Inputs) (sym : String) (st : StateMap)
    (hE : entry_cond inp (stateGet st sym) = false)
    (hR : reduce_cond inp (stateGet st sym) = false)
    (hX : exit_cond inp (stateGet st sym) = false) :
    process_symbol inp sym st = ⟨[], st, []⟩ := by
  simp [process_symbol, hE, hR, hX]

/-! ## Claim theorems -/

/-- C1: with a long position, `weekly_ok` false and the `weekly_off@` key
unfired, the Exit rule fires, the position goes flat, and the state is
persisted — but, contrary to the spec, the source never calls
`mark_alert(full_key)` in the Exit branch, so the key is still unfired in
the resulting alerts mapping (the `not alerted(full_key)` guard is vacuous). -/
theorem exit_fires_without_marking_weekly_key :
    (process_symbol exitInp "S" longState).fired = [Alert.exitAll] ∧
    (stateGet (process_symbol exitInp "S" longState).state "S").position = Position.flat ∧
    (process_symbol exitInp "S" longState).saves =
      [(process_symbol exitInp "S" longState).state] ∧
    alerted (stateGet (process_symbol exitInp "S" longState).state "S").alerts
      ("weekly_off@" ++ exitInp.w_week_str) = false := by
  decide

/-- C4: from a flat position with `weekly_ok`, `entry_cross` and
`daily_trend_ok` all holding, exactly the Entry alert fires, the position
becomes long with `last_entry` set to the daily bar timestamp, the mutated
mapping is persisted at once, and no Reduce or Exit is evaluated. -/
theorem entry_rule_fires (inp : Inputs) (sym : String) (st : StateMap)
    (hpos : (stateGet st sym).position = Position.flat)
    (hw : weekly_ok_of inp = true)
    (hc : crossed_up inp.k_prev inp.d_prev inp.k_last inp.d_last = true)
    (ht : daily_trend_ok_of inp = true) :
    (process_symbol inp sym st).fired = [Alert.entry] ∧
    (process_symbol inp sym st).state =
      dictSet st sym (entry_apply inp (stateGet st sym)) ∧
    (stateGet (process_symbol inp sym st).state sym).position = Position.long ∧
    (stateGet (process_symbol inp sym st).state sym).last_entry = some inp.d_ts ∧
    (process_symbol inp sym st).saves = [(process_symbol inp sym st).state] := by
  have hE : entry_cond inp (stateGet st sym) = true := by
    simp [entry_cond, hpos, hw, hc, ht]
  rw [process_symbol_entry_eq inp sym st hE]
  refine ⟨rfl, rfl, ?_, ?_, rfl⟩ <;> simp [stateGet_set_self, entry_apply]

/-- Witness for C4: the Entry scenario on an empty state store. -/
theorem entry_rule_fires_witness :
    ((stateGet [] "S").position = Position.flat ∧ weekly_ok_of entryInp = true ∧
      crossed_up entryInp.k_prev entryInp.d_prev entryInp.k_last entryInp.d_last = true ∧
      daily_trend_ok_of entryInp = true) ∧
    ((process_symbol entryInp "S" []).fired = [Alert.entry] ∧
      (process_symbol entryInp "S" []).state =
        dictSet [] "S" (entry_apply entryInp (stateGet [] "S")) ∧
      (stateGet (process_symbol entryInp "S" []).state "S").position = Position.long ∧
      (stateGet (process_symbol entryInp "S" []).state "S").last_entry =
        some entryInp.d_ts ∧
      (process_symbol entryInp "S" []).saves = [(process_symbol entryInp "S" []).state]) :=
  ⟨⟨by decide, by decide, by decide, by decide⟩,
    entry_rule_fires entryInp "S" [] (by decide) (by decide) (by decide) (by decide)⟩

/-- C5: the position changes flat→long only when Entry fires, long→flat
only when Exit fires, a lone Reduce leaves it unchanged, and Entry fires
only from flat (hence no second Entry without an intervening Exit). -/
theorem position_transition_invariant (inp : Inputs) (sym : String) (st : StateMap) :
    ((stateGet st sym).position = Position.flat ∧
        (stateGet (process_symbol inp sym st).state sym).position = Position.long →
      Alert.entry ∈ (process_symbol inp sym st).fired) ∧
    ((stateGet st sym).position = Position.long ∧
        (stateGet (process_symbol inp sym st).state sym).position = Position.flat →
      Alert.exitAll ∈ (process_symbol inp sym st).fired) ∧
    ((process_symbol inp sym st).fired = [Alert.reduce] →
      (stateGet (process_symbol inp sym st).state sym).position =
        (stateGet st sym).position) ∧
    (Alert.entry ∈ (process_symbol inp sym st).fired →
      (stateGet st sym).position = Position.flat) := by
  by_cases hE : entry_cond inp (stateGet st sym) = true
  · rw [process_symbol_entry_eq inp sym st hE]
    simp [stateGet_set_self, entry_apply, entry_cond_flat inp _ hE]
  · rw [Bool.not_eq_true] at hE
    by_cases hR : reduce_cond inp (stateGet st sym) = true
    · have hlong := reduce_cond_long inp _ hR
      by_cases hX : exit_cond inp (reduce_apply inp (stateGet st sym)) = true
      · rw [process_symbol_reduce_exit_eq inp sym st hE hR hX]
        simp [stateGet_set_self, exit_apply, hlong]
      · rw [Bool.not_eq_true] at hX
        rw [process_symbol_reduce_eq inp sym st hE hR hX]
        simp [stateGet_set_self, reduce_apply, hlong]
    · rw [Bool.not_eq_true] at hR
      by_cases hX : exit_cond inp (stateGet st sym) = true
      · have hlong := exit_cond_long inp _ hX
        rw [process_symbol_exit_eq inp sym st hE hR hX]
        simp [stateGet_set_self, exit_apply, hlong]
      · rw [Bool.not_eq_true] at hX
        rw [process_symbol_noop_eq inp sym st hE hR hX]
        simp
        refine ⟨?_, ?_⟩ <;> intro h1 <;> rw [h1] <;> decide

/-- Witness for C5 at the concrete Exit scenario. -/
theorem position_transition_invariant_witness :
    ((stateGet longState "S").position = Position.flat ∧
        (stateGet (process_symbol exitInp "S" longState).state "S").position =
          Position.long →
      Alert.entry ∈ (process_symbol exitInp "S" longState).fired) ∧
    ((stateGet longState "S").position = Position.long ∧
        (stateGet (process_symbol exitInp "S" longState).state "S").position =
          Position.flat →
      Alert.exitAll ∈ (process_symbol exitInp "S" longState).fired) ∧
    ((process_symbol exitInp "S" longState).fired = [Alert.reduce] →
      (stateGet (process_symbol exitInp "S" longState).state "S").position =
        (stateGet longState "S").position) ∧
    (Alert.entry ∈ (process_symbol exitInp "S" longState).fired →
      (stateGet longState "S").position = Position.flat) :=
  position_transition_invariant exitInp "S" longState

/-- C2: re-running the state machine on the state the first run produced,
with identical indicator inputs, fires no alert, persists nothing, and
leaves the state mapping unchanged. -/
theorem process_symbol_idempotent (inp : Inputs) (sym : String) (st : StateMap) :
    (process_symbol inp sym (process_symbol inp sym st).state).fired = [] ∧
    (process_symbol inp sym (process_symbol inp sym st).state).state =
      (process_symbol inp sym st).state ∧
    (process_symbol inp sym (process_symbol inp sym st).state).saves = [] := by
  by_cases hE : entry_cond inp (stateGet st sym) = true
  · have hget : stateGet (dictSet st sym (entry_apply inp (stateGet st sym))) sym =
        entry_apply inp (stateGet st sym) := stateGet_set_self st sym _
    have hE2 : entry_cond inp (entry_apply inp (stateGet st sym)) = false := by
      simp [entry_cond, entry_apply]
    have hR2 : reduce_cond inp (entry_apply inp (stateGet st sym)) = false := by
      simp [reduce_cond, crossed_up_not_down _ _ _ _ (entry_cond_up inp _ hE)]
    have hX2 : exit_cond inp (entry_apply inp (stateGet st sym)) = false := by
      simp [exit_cond, entry_cond_weekly inp _ hE]
    simp only [process_symbol_entry_eq inp sym st hE]
    rw [process_symbol_noop_eq inp sym _ (by rw [hget]; exact hE2)
      (by rw [hget]; exact hR2) (by rw [hget]; exact hX2)]
    exact ⟨rfl, rfl, rfl⟩
  · rw [Bool.not_eq_true] at hE
    by_cases hR : reduce_cond inp (stateGet st sym) = true
    · by_cases hX : exit_cond inp (reduce_apply inp (stateGet st sym)) = true
      · have hget : stateGet (dictSet (dictSet st sym (reduce_apply inp (stateGet st sym)))
            sym (exit_apply (reduce_apply inp (stateGet st sym)))) sym =
            exit_apply (reduce_apply inp (stateGet st sym)) := stateGet_set_self _ sym _
        have hE2 : entry_cond inp (exit_apply (reduce_apply inp (stateGet st sym))) = false := by
          simp [entry_cond, exit_cond_weekly_off inp _ hX]
        have hR2 : reduce_cond inp (exit_apply (reduce_apply inp (stateGet st sym))) = false := by
          simp [reduce_cond, exit_apply]
        have hX2 : exit_cond inp (exit_apply (reduce_apply inp (stateGet st sym))) = false := by
          simp [exit_cond, exit_apply]
        simp only [process_symbol_reduce_exit_eq inp sym st hE hR hX]
        rw [process_symbol_noop_eq inp sym _ (by rw [hget]; exact hE2)
          (by rw [hget]; exact hR2) (by rw [hget]; exact hX2)]
        exact ⟨rfl, rfl, rfl⟩
      · rw [Bool.not_eq_true] at hX
        have hlong := reduce_cond_long inp _ hR
        have hget : stateGet (dictSet st sym (reduce_apply inp (stateGet st sym))) sym =
            reduce_apply inp (stateGet st sym) := stateGet_set_self st sym _
        have hE2 : entry_cond inp (reduce_apply inp (stateGet st sym)) = false := by
          simp [entry_cond, reduce_apply_position, hlong]
        have hR2 : reduce_cond inp (reduce_apply inp (stateGet st sym)) = false := by
          simp [reduce_cond, reduce_apply, alerted_set_self]
        simp only [process_symbol_reduce_eq inp sym st hE hR hX]
        rw [process_symbol_noop_eq inp sym _ (by rw [hget]; exact hE2)
          (by rw [hget]; exact hR2) (by rw [hget]; exact hX)]
        exact ⟨rfl, rfl, rfl⟩
    · rw [Bool.not_eq_true] at hR
      by_cases hX : exit_cond inp (stateGet st sym) = true
      · have hget : stateGet (dictSet st sym (exit_apply (stateGet st sym))) sym =
            exit_apply (stateGet st sym) := stateGet_set_self st sym _
        have hE2 : entry_cond inp (exit_apply (stateGet st sym)) = false := by
          simp [entry_cond, exit_cond_weekly_off inp _ hX]
        have hR2 : reduce_cond inp (exit_apply (stateGet st sym)) = false := by
          simp [reduce_cond, exit_apply]
        have hX2 : exit_cond inp (exit_apply (stateGet st sym)) = false := by
          simp [exit_cond, exit_apply]
        simp only [process_symbol_exit_eq inp sym st hE hR hX]
        rw [process_symbol_noop_eq inp sym _ (by rw [hget]; exact hE2)
          (by rw [hget]; exact hR2) (by rw [hget]; exact hX2)]
        exact ⟨rfl, rfl, rfl⟩
      · rw [Bool.not_eq_true] at hX
        simp only [process_symbol_noop_eq inp sym st hE hR hX]
        exact ⟨trivial, trivial, trivial⟩

/-- C3 counterexample: at position 2 of `exBars` the 2-bar window is flat,
yet the code's K line is defined there (pandas `ewm` carries the previous
mean over a `NaN` input), contradicting the claim that K(i) is undefined at
a flat-window position. -/
theorem flat_window_defined_K_counterexample :
    FlatWindow 2 exBars 2 ∧
    (compute_kd_recursive 2 (1/3) exBars).1[2]? = some (some 100) := by
  constructor
  · refine ⟨by norm_num, by simp [exBars], ?_⟩
    simp [winHigh, winLow, window, listMax, listMin, exBars]
  · have h : rsvList 2 exBars = [none, some 100, none] := by
      simp [rsvList, rsvAt, exBars, window, winHigh, winLow, listMax, listMin,
        List.range_succ]
      norm_num
    have hkey : (compute_kd_recursive 2 (1/3) exBars).1 = ewm (1/3) (rsvList 2 exBars) := rfl
    rw [hkey, h]
    simp [ewm, ewmGo, ewmStep, ewmOut]

/-- C3 (amended): at a flat-window position the RSV is undefined (not
zero), and the K line merely repeats K(i-1) at that position (so K is
undefined there only while no earlier RSV was defined, and defined values
do not become undefined). -/
theorem flat_window_rsv_none_K_carries (n : Nat) (α : ℚ) (bars : List Bar) (i : Nat)
    (h : FlatWindow n bars i) :
    rsvAt n bars i = none ∧
    (compute_kd_recursive n α bars).1[i]? =
      (if i = 0 then some none else (compute_kd_recursive n α bars).1[i - 1]?) := by
  obtain ⟨hn, hi, hflat⟩ := h
  have hrsv : rsvAt n bars i = none := by
    unfold rsvAt
    split
    · rfl
    · simp [hflat]
  refine ⟨hrsv, ?_⟩
  have hkey : (compute_kd_recursive n α bars).1 = ewm α (rsvList n bars) := rfl
  cases i with
  | zero =>
    have h0 : (rsvList n bars)[0]? = some none := by
      rw [rsvList_get n bars 0 hi, hrsv]
    simp only [hkey, if_pos]
    exact ewm_get_zero_none α _ h0
  | succ j =>
    have hj : (rsvList n bars)[j + 1]? = some none := by
      rw [rsvList_get n bars (j + 1) hi, hrsv]
    simp only [hkey, Nat.succ_ne_zero, if_false, Nat.add_sub_cancel, ewm]
    exact ewmGo_get_none α (rsvList n bars) ⟨none, 1, 0⟩ j hj

/-- Witness for the amended C3 at `exBars`, position 2. -/
theorem flat_window_rsv_none_K_carries_witness :
    FlatWindow 2 exBars 2 ∧
    (rsvAt 2 exBars 2 = none ∧
      (compute_kd_recursive 2 (1/3) exBars).1[2]? =
        (if 2 = 0 then some none else (compute_kd_recursive 2 (1/3) exBars).1[2 - 1]?)) := by
  have hf : FlatWindow 2 exBars 2 := by
    refine ⟨by norm_num, by simp [exBars], ?_⟩
    simp [winHigh, winLow, window, listMax, listMin, exBars]
  exact ⟨hf, flat_window_rsv_none_K_carries 2 (1/3) exBars 2 hf⟩

/-- C6 counterexample: on `exBars4` (flat window at position 2, RSV resumes
with 0 at position 3) the code's K(3) is 400/7, not the claimed
α·RSV(3) + (1-α)·K(2) = 200/3: after a `NaN` gap pandas `ewm` reweights
with (1-α)² instead of applying the plain recursion. -/
theorem kd_not_plain_recursion_counterexample :
    rsvAt 2 exBars4 3 = some 0 ∧
    (compute_kd_recursive 2 (1/3) exBars4).1[2]? = some (some 100) ∧
    (compute_kd_recursive 2 (1/3) exBars4).1[3]? = some (some (400/7)) ∧
    ((400 : ℚ)/7 ≠ (1/3) * 0 + (1 - 1/3) * 100) := by
  have hK : (compute_kd_recursive 2 (1/3) exBars4).1 =
      [none, some 100, some 100, some (400/7)] := by
    have h : rsvList 2 exBars4 = [none, some 100, none, some 0] := by
      simp [rsvList, rsvAt, exBars4, window, winHigh, winLow, listMax, listMin,
        List.range_succ]
      norm_num
    have hkey : (compute_kd_recursive 2 (1/3) exBars4).1 =
        ewm (1/3) (rsvList 2 exBars4) := rfl
    rw [hkey, h]
    simp [ewm, ewmGo, ewmStep, ewmOut]
    norm_num
  refine ⟨?_, by rw [hK]; rfl, by rw [hK]; rfl, by norm_num⟩
  simp [rsvAt, exBars4, window, winHigh, winLow, listMax, listMin]

/-- C6 (amended): whenever the RSV sequence is a `NaN` prefix followed by
defined values only (no interior flat window), the code's K line is exactly
the spec's seeded fold `K(i) = α·RSV(i) + (1-α)·K(i-1)` seeded at the first
defined RSV, and the D line is the same fold applied to K. -/
theorem kd_seeded_fold (n : Nat) (α : ℚ) (bars : List Bar) (m : Nat) (qs : List ℚ)
    (h : rsvList n bars = List.replicate m none ++ qs.map some) :
    (compute_kd_recursive n α bars).1 =
      List.replicate m none ++ (seedScan α qs).map some ∧
    (compute_kd_recursive n α bars).2 =
      List.replicate m none ++ (seedScan α (seedScan α qs)).map some := by
  have h1 : (compute_kd_recursive n α bars).1 = ewm α (rsvList n bars) := rfl
  have h2 : (compute_kd_recursive n α bars).2 = ewm α (ewm α (rsvList n bars)) := rfl
  constructor
  · rw [h1, h, ewm_shape]
  · rw [h2, h, ewm_shape, ewm_shape]

/-- Witness for the amended C6 on `smoothBars` (RSV = [NaN, 100, 0]). -/
theorem kd_seeded_fold_witness :
    (rsvList 2 smoothBars = List.replicate 1 none ++ ([100, 0] : List ℚ).map some) ∧
    ((compute_kd_recursive 2 (1/3) smoothBars).1 =
        List.replicate 1 none ++ (seedScan (1/3) [100, 0]).map some ∧
      (compute_kd_recursive 2 (1/3) smoothBars).2 =
        List.replicate 1 none ++ (seedScan (1/3) (seedScan (1/3) [100, 0])).map some) := by
  have h : rsvList 2 smoothBars = List.replicate 1 none ++ ([100, 0] : List ℚ).map some := by
    simp [rsvList, rsvAt, smoothBars, window, winHigh, winLow, listMax, listMin,
      List.range_succ]
  exact ⟨h, kd_seeded_fold 2 (1/3) smoothBars 1 [100, 0] h⟩

/-- C7: for any (Kp, Dp, Kc, Dc) with Kp ≠ Dp or Kc ≠ Dc, `crossed_up` and
`crossed_down` are never both true. -/
theorem crossed_up_down_mutually_exclusive (kp dp k d : ℚ) (h : kp ≠ dp ∨ k ≠ d) :
    ¬(crossed_up kp dp k d = true ∧ crossed_down kp dp k d = true) := by
  rintro ⟨h1, h2⟩
  simp only [crossed_up, crossed_down, Bool.and_eq_true, decide_eq_true_eq] at h1 h2
  exact absurd (lt_trans h1.2 h2.2) (lt_irrefl d)

/-- Witness for C7 at the concrete quadruple (40, 50, 60, 50). -/
theorem crossed_up_down_mutually_exclusive_witness :
    ((40 : ℚ) ≠ 50 ∨ (60 : ℚ) ≠ 50) ∧
    ¬(crossed_up 40 50 60 50 = true ∧ crossed_down 40 50 60 50 = true) :=
  ⟨Or.inl (by norm_num),
    crossed_up_down_mutually_exclusive 40 50 60 50 (Or.inl (by norm_num))⟩

/-- C8: when the trimmed daily series has fewer than `max(DAILY_MA+2, K_PERIOD+2)`
bars or the weekly series fewer than `max(WEEKLY_MA+2, K_PERIOD+2)` bars, the
per-symbol evaluation returns normally with no alert and no state change. -/
theorem insufficient_history_skips (len_d len_w daily_ma weekly_ma k_period : Nat)
    (downstream : Except String (Option Inputs)) (sym : String) (st : StateMap)
    (h : len_d < need_d daily_ma k_period ∨ len_w < need_w weekly_ma k_period) :
    process_symbol_run len_d len_w daily_ma weekly_ma k_period downstream sym st =
      Except.ok (none, st) := by
  simp [process_symbol_run, h]

/-- Witness for C8: 5 daily bars against the default `need_d 20 9 = 22`,
with a downstream stage that would fail if it were ever consulted. -/
theorem insufficient_history_skips_witness :
    (5 < need_d 20 9 ∨ 100 < need_w 20 9) ∧
    process_symbol_run 5 100 20 20 9 (Except.error "no data") "S" [] =
      Except.ok (none, []) :=
  ⟨Or.inl (by decide),
    insufficient_history_skips 5 100 20 20 9 (Except.error "no data") "S" []
      (Or.inl (by decide))⟩

/-- C9: an invocation for symbol `sym` that fires an alert leaves the state
mapping entry of every other symbol unchanged. -/
theorem process_symbol_other_symbols_unchanged (inp : Inputs) (sym : String)
    (st : StateMap) (sym1 : String) (h1 : sym1 ≠ sym)
    (h2 : (process_symbol inp sym st).fired ≠ []) :
    dictGet? (process_symbol inp sym st).state sym1 = dictGet? st sym1 := by
  simp only [process_symbol]
  split_ifs <;> simp [dictGet?_set_ne _ _ _ _ h1]

/-- Witness for C9: an Exit fires for `"S"`; the entry for `"T"` is untouched. -/
theorem process_symbol_other_symbols_unchanged_witness :
    ("T" : String) ≠ "S" ∧ (process_symbol exitInp "S" longState).fired ≠ [] ∧
    dictGet? (process_symbol exitInp "S" longState).state "T" = dictGet? longState "T" :=
  ⟨by decide, by decide,
    process_symbol_other_symbols_unchanged exitInp "S" longState "T" (by decide) (by decide)⟩

/-- C10: `load_state` never fails: a missing state file or unparseable
contents both yield the empty mapping, under which every symbol reads back
as flat with no fired alert keys. -/
theorem load_state_missing_or_corrupt (file : Option (Except String StateMap))
    (h : file = none ∨ ∃ e, file = some (Except.error e)) :
    load_state file = [] ∧ ∀ sym, stateGet (load_state file) sym = defaultSymState := by
  obtain rfl | ⟨e, rfl⟩ := h <;> simp [load_state, stateGet, dictGet?]

/-- Witness for C10 at a missing state file. -/
theorem load_state_missing_or_corrupt_witness :
    ((none : Option (Except String StateMap)) = none ∨
      ∃ e, (none : Option (Except String StateMap)) = some (Except.error e)) ∧
    (load_state none = [] ∧ ∀ sym, stateGet (load_state none) sym = defaultSymState) :=
  ⟨Or.inl rfl, load_state_missing_or_corrupt none (Or.inl rfl)⟩

end KDX
